import Mathlib

/-!
Verification of the flexbox-style layout engine in `yoga_demo.py`
(`YogaNode`: `calculate_layout`, `_layout_row`, `_layout_column`,
`render`, `_render_node`), shallowly embedded in Lean.

Modelling notes:
* Python ints are `Int`; terminal dimensions are `Nat` (cast where the
  source subtracts).
* `flex_grow` is modelled as `Nat`: in the source it is a float, but every
  construction site uses small non-negative integer weights, for which the
  float expression `int((remaining * g) / G)` computes exactly the integer
  quotient truncated toward zero, i.e. `Int.tdiv (remaining * g) G`.
* Python `//` is floor division, `Int.fdiv`.
* Python truthiness of `self.width` (`None` and `0` are falsy) is `pyTruthy`;
  `a or b` on an optional int is `pyOr`.
-/

namespace YogaSpec

inductive FlexDirection where
  | row
  | column
deriving DecidableEq, Repr

inductive JustifyContent where
  | flexStart
  | center
  | flexEnd
  | spaceBetween
  | spaceAround
deriving DecidableEq, Repr

inductive AlignItems where
  | flexStart
  | center
  | flexEnd
  | stretch
deriving DecidableEq, Repr

/-- Shallow embedding of the `YogaNode` dataclass: style fields, the
(unused in layout) extra fields, the children list, and the computed
geometry fields, with the source's default values. -/
structure YogaNode where
  content : String := ""
  flex_direction : FlexDirection := .column
  justify_content : JustifyContent := .flexStart
  align_items : AlignItems := .flexStart
  width : Option Int := none
  height : Option Int := none
  flex_grow : Nat := 0
  flex_shrink : Nat := 1
  flex_basis : Option Int := none
  margin : Int := 0
  padding : Int := 1
  border : Bool := true
  border_char : Char := '│'
  corner_char : Char := '┌'
  children : List YogaNode := []
  computed_x : Int := 0
  computed_y : Int := 0
  computed_width : Int := 0
  computed_height : Int := 0

mutual

/-- Structural size of a node tree, used as the termination measure of the
layout and render recursions (the default `sizeOf` also counts the integer
fields, which the recursions update). -/
def nodeSize : YogaNode → Nat
  | ⟨_, _, _, _, _, _, _, _, _, _, _, _, _, _, children, _, _, _, _⟩ =>
    1 + nodeListSize children

/-- Structural size of a list of nodes. -/
def nodeListSize : List YogaNode → Nat
  | [] => 0
  | c :: cs => 1 + nodeSize c + nodeListSize cs

end

/-- Python truthiness of an `Optional[int]`: `None` and `0` are falsy. -/
def pyTruthy (o : Option Int) : Bool :=
  match o with
  | none => false
  | some v => v != 0

/-- Python `o or d` for `o : Optional[int]`: the value of `o` when truthy,
else `d`. -/
def pyOr (o : Option Int) (d : Int) : Int :=
  match o with
  | none => d
  | some v => if v = 0 then d else v

/-- Sum of the children's `flex_grow` weights
(`sum(child.flex_grow for child in self.children)`). -/
def sumFlex (cs : List YogaNode) : Nat :=
  (cs.map (fun c => c.flex_grow)).sum

/-- Per-child main-axis size computed inside the `_layout_row` /
`_layout_column` loop: explicit size if truthy; else the flex share
`int((remaining * g) / G)` when the total and own grow are positive;
else the even share `remaining // n`. -/
def mainShare (sz : Option Int) (g G : Nat) (remaining : Int) (n : Nat) : Int :=
  if pyTruthy sz then pyOr sz 0
  else if 0 < G ∧ 0 < g then Int.tdiv (remaining * (g : Int)) (G : Int)
  else Int.fdiv remaining (n : Int)

mutual

/-- Embedding of `YogaNode.calculate_layout(available_width, available_height)`.
The source assigns each child's `computed_x`/`computed_y` immediately before
recursing into `child.calculate_layout`, and `calculate_layout` never writes
its own `computed_x`/`computed_y`; the embedding therefore passes the node's
(x, y) as explicit arguments (`calculateLayout` below supplies the node's own
stored coordinates, which the Python method leaves untouched). -/
def calcLayoutXY (t : YogaNode) (x y aw ah : Int) : YogaNode :=
  let cw := pyOr t.width aw
  let ch := pyOr t.height ah
  if t.children.isEmpty then
    { t with computed_x := x, computed_y := y,
             computed_width := cw, computed_height := ch }
  else
    match t.flex_direction with
    | .row =>
      { t with computed_x := x, computed_y := y,
               computed_width := cw, computed_height := ch,
               children :=
                 rowGo t.children (sumFlex t.children)
                   (aw - 2 * (t.children.length : Int))
                   t.padding ah t.children.length t.padding }
    | .column =>
      { t with computed_x := x, computed_y := y,
               computed_width := cw, computed_height := ch,
               children :=
                 colGo t.children (sumFlex t.children)
                   (ah - 2 * (t.children.length : Int))
                   t.padding aw t.children.length t.padding }
termination_by nodeSize t
decreasing_by
  all_goals cases t
  all_goals simp [nodeSize, nodeListSize]

/-- Loop body of `_layout_row`: `G` is `total_flex_grow`, `remaining` is
`available_width - len(children) * 2`, `p` is the parent's padding, `ah`
the parent's `available_height`, `n` is `len(children)`, `curx` is the
running `current_x`. -/
def rowGo (cs : List YogaNode) (G : Nat) (remaining p ah : Int) (n : Nat)
    (curx : Int) : List YogaNode :=
  match cs with
  | [] => []
  | c :: rest =>
    let cwid := mainShare c.width c.flex_grow G remaining n
    calcLayoutXY c curx p cwid (ah - 2 * p) ::
      rowGo rest G remaining p ah n (curx + cwid + p)
termination_by nodeListSize cs
decreasing_by
  all_goals simp [nodeSize, nodeListSize]
  all_goals omega

/-- Loop body of `_layout_column`, mirror image of `rowGo`. -/
def colGo (cs : List YogaNode) (G : Nat) (remaining p aw : Int) (n : Nat)
    (cury : Int) : List YogaNode :=
  match cs with
  | [] => []
  | c :: rest =>
    let chei := mainShare c.height c.flex_grow G remaining n
    calcLayoutXY c p cury (aw - 2 * p) chei ::
      colGo rest G remaining p aw n (cury + chei + p)
termination_by nodeListSize cs
decreasing_by
  all_goals simp [nodeSize, nodeListSize]
  all_goals omega

end

/-- Embedding of `YogaNode.calculate_layout` as called from outside: the
node's own `computed_x`/`computed_y` are left as they are. -/
def calculateLayout (t : YogaNode) (aw ah : Int) : YogaNode :=
  calcLayoutXY t t.computed_x t.computed_y aw ah

/-- A terminal character grid, modelled as a total function on integer
(row, column) coordinates. The source builds a `th × tw` list of lists; the
clipping theorems assert that no cell outside `[0, th) times [0, tw)` is
ever updated, which is exactly the condition under which the list accesses
of the source are in range. -/
def Grid : Type := Int → Int → Char

/-- Single cell update, `grid[r][c] = ch`. -/
def writeCell (g : Grid) (r c : Int) (ch : Char) : Grid :=
  fun r' c' => if r' = r ∧ c' = c then ch else g r' c'

/-- A guarded write, `if cond: grid[r][c] = ch` — the shape of every grid
write in `_render_node`. -/
def writeIf (cond : Prop) [Decidable cond] (g : Grid) (r c : Int)
    (ch : Char) : Grid :=
  if cond then writeCell g r c ch else g

/-- Clamped x of `_render_node`: `x = max(0, min(x, terminal_width - 1))`,
where the incoming `computed_x` has already been shifted by the parent's
clamped origin `dx`. -/
def clampedX (t : YogaNode) (dx : Int) (tw : Nat) : Int :=
  max 0 (min (t.computed_x + dx) ((tw : Int) - 1))

/-- Clamped y of `_render_node`. -/
def clampedY (t : YogaNode) (dy : Int) (th : Nat) : Int :=
  max 0 (min (t.computed_y + dy) ((th : Int) - 1))

/-- Clipped width of `_render_node`: `w = min(w, terminal_width - x)`. -/
def clippedW (t : YogaNode) (dx : Int) (tw : Nat) : Int :=
  min t.computed_width ((tw : Int) - clampedX t dx tw)

/-- Clipped height of `_render_node`: `h = min(h, terminal_height - y)`. -/
def clippedH (t : YogaNode) (dy : Int) (th : Nat) : Int :=
  min t.computed_height ((th : Int) - clampedY t dy th)

/-- Top and bottom border edges: the `for i in range(w)` loop of
`_render_node` with its two guarded writes. -/
def paintTB (g : Grid) (x y w h : Int) (tw th : Nat) : Grid :=
  (List.range w.toNat).foldl
    (fun g1 (i : Nat) =>
      writeIf (y + h - 1 < (th : Int) ∧ x + (i : Int) < (tw : Int))
        (writeIf (y < (th : Int) ∧ x + (i : Int) < (tw : Int))
          g1 y (x + (i : Int)) '─')
        (y + h - 1) (x + (i : Int)) '─')
    g

/-- Left and right border edges: the `for i in range(h)` loop. -/
def paintLR (g : Grid) (x y w h : Int) (tw th : Nat) : Grid :=
  (List.range h.toNat).foldl
    (fun g1 (i : Nat) =>
      writeIf (y + (i : Int) < (th : Int) ∧ x + w - 1 < (tw : Int))
        (writeIf (y + (i : Int) < (th : Int) ∧ x < (tw : Int))
          g1 (y + (i : Int)) x '│')
        (y + (i : Int)) (x + w - 1) '│')
    g

/-- The four guarded corner writes of `_render_node`. -/
def paintCorners (g : Grid) (x y w h : Int) (tw th : Nat) : Grid :=
  writeIf (y + h - 1 < (th : Int) ∧ x + w - 1 < (tw : Int))
    (writeIf (y + h - 1 < (th : Int) ∧ x < (tw : Int))
      (writeIf (y < (th : Int) ∧ x + w - 1 < (tw : Int))
        (writeIf (y < (th : Int) ∧ x < (tw : Int)) g y x '┌')
        y (x + w - 1) '┐')
      (y + h - 1) x '└')
    (y + h - 1) (x + w - 1) '┘'

/-- Inner content loop: writes the characters of one content line at row
`y + 1 + lidx`, columns `x + 1 + cidx`, each write guarded by
`x + 1 + char_idx < terminal_width`. -/
def paintChars (g : Grid) (cl : List Char) (cidx : Nat) (y : Int) (lidx : Nat)
    (x : Int) (tw : Nat) : Grid :=
  match cl with
  | [] => g
  | ch :: rest =>
    paintChars
      (writeIf (x + 1 + (cidx : Int) < (tw : Int))
        g (y + 1 + (lidx : Int)) (x + 1 + (cidx : Int)) ch)
      rest (cidx + 1) y lidx x tw

/-- Outer content loop over the lines kept by `lines[:h-2]`; each line is
truncated to `line[:w-2]` and only painted when
`y + 1 + line_idx < terminal_height`. -/
def paintContent (g : Grid) (ls : List String) (lidx : Nat) (x y w : Int)
    (tw th : Nat) : Grid :=
  match ls with
  | [] => g
  | line :: rest =>
    let g1 := if y + 1 + (lidx : Int) < (th : Int) then
        paintChars g (line.data.take (w - 2).toNat) 0 y lidx x tw
      else g
    paintContent g1 rest (lidx + 1) x y w tw th

/-- One node's own painting step of `_render_node` (border, then content);
the recursive painting of the children is in `renderNode`. `dx`/`dy` are the
parent's clamped origin, which the source adds into the child's
`computed_x`/`computed_y` just before the recursive call. -/
def paintSelf (t : YogaNode) (dx dy : Int) (g : Grid) (tw th : Nat) : Grid :=
  let x := clampedX t dx tw
  let y := clampedY t dy th
  let w := clippedW t dx tw
  let h := clippedH t dy th
  let g1 :=
    if t.border = true ∧ 2 < w ∧ 2 < h then
      paintCorners (paintLR (paintTB g x y w h tw th) x y w h tw th) x y w h tw th
    else g
  if t.content ≠ "" ∧ 2 < w ∧ 2 < h then
    paintContent g1 ((t.content.splitOn "\n").take (h - 2).toNat) 0 x y w tw th
  else g1

mutual

/-- Embedding of `_render_node`: paints this node, then, exactly as the
source mutates `child.computed_x += x; child.computed_y += y` before each
recursive call, renders each child shifted by this node's clamped origin.
Returns the tree as mutated by the call together with the final grid. -/
def renderNode (t : YogaNode) (dx dy : Int) (g : Grid) (tw th : Nat) :
    YogaNode × Grid :=
  let x := clampedX t dx tw
  let y := clampedY t dy th
  let g1 := paintSelf t dx dy g tw th
  let kg := renderKids t.children x y g1 tw th
  ({ t with computed_x := t.computed_x + dx, computed_y := t.computed_y + dy,
            children := kg.1 }, kg.2)
termination_by nodeSize t
decreasing_by
  all_goals cases t
  all_goals simp [nodeSize, nodeListSize]

/-- Sequential rendering of the children list, threading the grid. -/
def renderKids (cs : List YogaNode) (x y : Int) (g : Grid) (tw th : Nat) :
    List YogaNode × Grid :=
  match cs with
  | [] => ([], g)
  | c :: rest =>
    let cg := renderNode c x y g tw th
    let rg := renderKids rest x y cg.2 tw th
    (cg.1 :: rg.1, rg.2)
termination_by nodeListSize cs
decreasing_by
  all_goals simp [nodeSize, nodeListSize]
  all_goals omega

end

/-- The all-blank grid `[[' ' for _ in range(tw)] for _ in range(th)]`. -/
def blankGrid : Grid := fun _ _ => ' '

/-- One full `render(terminal_width, terminal_height)` call before
serialisation: layout, then painting from a blank grid. Returns the tree as
left mutated by the call and the painted grid. -/
def renderPass (t : YogaNode) (tw th : Nat) : YogaNode × Grid :=
  renderNode (calculateLayout t (tw : Int) (th : Int)) 0 0 blankGrid tw th

/-- Serialisation of the `th` rows of `tw` cells the source allocates, one
string per row. -/
def gridLines (g : Grid) (tw th : Nat) : List String :=
  (List.range th).map
    (fun (r : Nat) =>
      String.mk ((List.range tw).map (fun (c : Nat) => g (r : Int) (c : Int))))

/-- Embedding of `YogaNode.render`: the returned string (rows joined by
newline), paired with the tree state after the call (the source mutates the
tree in place). -/
def render (t : YogaNode) (tw th : Nat) : String × YogaNode :=
  (String.intercalate "\n" (gridLines (renderPass t tw th).2 tw th),
   (renderPass t tw th).1)

mutual

/-- The node with all computed geometry zeroed, recursively. Two trees with
the same `eraseComputed` image agree on every style field, on the children
shape, and differ at most in computed geometry. -/
def eraseComputed (t : YogaNode) : YogaNode :=
  { t with computed_x := 0, computed_y := 0,
           computed_width := 0, computed_height := 0,
           children := eraseList t.children }
termination_by nodeSize t
decreasing_by
  all_goals cases t
  all_goals simp [nodeSize, nodeListSize]

/-- Pointwise `eraseComputed` over a children list. -/
def eraseList (cs : List YogaNode) : List YogaNode :=
  match cs with
  | [] => []
  | c :: rest => eraseComputed c :: eraseList rest
termination_by nodeListSize cs
decreasing_by
  all_goals simp [nodeSize, nodeListSize]
  all_goals omega

end

/-- A cell (r, c) lies outside the terminal rectangle `[0, th) x [0, tw)`
(rows first, matching `grid[y][x]`). -/
def outside (tw th : Nat) (r c : Int) : Prop :=
  r < 0 ∨ (th : Int) ≤ r ∨ c < 0 ∨ (tw : Int) ≤ c

instance (tw th : Nat) (r c : Int) : Decidable (outside tw th r c) := by
  unfold outside
  infer_instance

/-- Leaf with all dataclass defaults (the `YogaNode()` of the source). -/
def defaultLeaf : YogaNode := { children := [] }

/-- Leaf with an explicit width and otherwise default style. -/
def leafW (w : Int) : YogaNode := { width := some w, children := [] }

/-- Child of the spec's first concrete scenario: `flex_grow=1`, no explicit
size. -/
def c3kid : YogaNode := { flex_grow := 1, children := [] }

/-- Root of the spec's first concrete scenario: `direction=Row`, `padding=0`,
no border, two `flex_grow=1` children, laid out at 10 x 5. -/
def c3root : YogaNode :=
  { flex_direction := .row, padding := 0, border := false,
    children := [c3kid, c3kid] }

/-- Root of the spec's second concrete scenario: `direction=Row`, one child
with `width=4` and one with `flex_grow=1`, laid out at 12 x 3. -/
def c4root : YogaNode :=
  { flex_direction := .row, children := [leafW 4, c3kid] }

/-- Row parent with two flex-only children used to refute the conservation
claim at available width 11. -/
def c2root : YogaNode :=
  { flex_direction := .row, border := false, children := [c3kid, c3kid] }

/-- Row parent with a single default child, used to exhibit a negative
computed width at available width 0. -/
def c8root : YogaNode :=
  { flex_direction := .row, children := [defaultLeaf] }

/-- Bordered node whose clipped width is 2 on a 10 x 5 terminal. -/
def c6thin : YogaNode :=
  { border := true, computed_x := 0, computed_y := 0,
    computed_width := 2, computed_height := 4, children := [] }

/-- Bordered node whose clipped rectangle is 5 x 4 on a 10 x 5 terminal. -/
def c6wide : YogaNode :=
  { border := true, computed_x := 0, computed_y := 0,
    computed_width := 5, computed_height := 4, children := [] }

/-- Node protruding past the terminal on all sides, for the clipping
witness. -/
def c5node : YogaNode :=
  { border := true, content := "hello", computed_x := -3, computed_y := -2,
    computed_width := 100, computed_height := 50, children := [] }

/-- The computed geometry of a subtree: the quadruple
(computed_x, computed_y, computed_width, computed_height) at every node. -/
inductive GeomTree where
  | node : Int → Int → Int → Int → List GeomTree → GeomTree

mutual

/-- Projection of a node tree to its computed geometry. -/
def geomOf (t : YogaNode) : GeomTree :=
  .node t.computed_x t.computed_y t.computed_width t.computed_height
    (geomList t.children)
termination_by nodeSize t
decreasing_by
  all_goals cases t
  all_goals simp [nodeSize, nodeListSize]

/-- Pointwise `geomOf` over a children list. -/
def geomList (cs : List YogaNode) : List GeomTree :=
  match cs with
  | [] => []
  | c :: rest => geomOf c :: geomList rest
termination_by nodeListSize cs
decreasing_by
  all_goals simp [nodeSize, nodeListSize]
  all_goals omega

end

theorem nodeSize_eq (t : YogaNode) : nodeSize t = 1 + nodeListSize t.children := by
  cases t
  simp [nodeSize]

theorem nodeSize_lt_of_mem {c : YogaNode} {cs : List YogaNode} (hc : c ∈ cs) :
    nodeSize c < 1 + nodeListSize cs := by
  induction cs with
  | nil => cases hc
  | cons a rest ih =>
    rcases List.mem_cons.mp hc with h | h
    · subst h
      simp only [nodeListSize]
      omega
    · have := ih h
      simp only [nodeListSize]
      omega

theorem nodeSize_lt_of_mem_children {c t : YogaNode} (hc : c ∈ t.children) :
    nodeSize c < nodeSize t := by
  have h1 := nodeSize_lt_of_mem hc
  have h2 := nodeSize_eq t
  omega

/-- Strong induction over node trees: to prove a property of every node it
suffices to prove it assuming it for all children. -/
theorem treeInduction (P : YogaNode → Prop)
    (h : ∀ t : YogaNode, (∀ c ∈ t.children, P c) → P t) : ∀ t, P t := by
  have key : ∀ n, ∀ t : YogaNode, nodeSize t ≤ n → P t := by
    intro n
    induction n with
    | zero =>
      intro t ht
      exfalso
      have := nodeSize_eq t
      omega
    | succ n ih =>
      intro t ht
      apply h
      intro c hc
      apply ih
      have := nodeSize_lt_of_mem_children hc
      omega
  intro t
  exact key (nodeSize t) t le_rfl

theorem pyOr_mainShare (o : Option Int) (g G : Nat) (r : Int) (n : Nat) :
    pyOr o (mainShare o g G r n) = mainShare o g G r n := by
  cases o with
  | none => simp [pyOr, mainShare, pyTruthy]
  | some v =>
    by_cases hv : v = 0
    · simp [pyOr, mainShare, pyTruthy, hv]
    · simp [pyOr, mainShare, pyTruthy, hv]

theorem rowGo_nil (G : Nat) (r p ah : Int) (n : Nat) (curx : Int) :
    rowGo [] G r p ah n curx = [] := by
  rw [rowGo]

theorem rowGo_cons (c : YogaNode) (rest : List YogaNode) (G : Nat)
    (r p ah : Int) (n : Nat) (curx : Int) :
    rowGo (c :: rest) G r p ah n curx =
      calcLayoutXY c curx p (mainShare c.width c.flex_grow G r n) (ah - 2 * p) ::
        rowGo rest G r p ah n (curx + mainShare c.width c.flex_grow G r n + p) := by
  rw [rowGo]

theorem colGo_nil (G : Nat) (r p aw : Int) (n : Nat) (cury : Int) :
    colGo [] G r p aw n cury = [] := by
  rw [colGo]

theorem colGo_cons (c : YogaNode) (rest : List YogaNode) (G : Nat)
    (r p aw : Int) (n : Nat) (cury : Int) :
    colGo (c :: rest) G r p aw n cury =
      calcLayoutXY c p cury (aw - 2 * p) (mainShare c.height c.flex_grow G r n) ::
        colGo rest G r p aw n (cury + mainShare c.height c.flex_grow G r n + p) := by
  rw [colGo]

theorem calcLayoutXY_eq (t : YogaNode) (x y aw ah : Int) :
    calcLayoutXY t x y aw ah =
      if t.children.isEmpty then
        { t with computed_x := x, computed_y := y,
                 computed_width := pyOr t.width aw,
                 computed_height := pyOr t.height ah }
      else
        match t.flex_direction with
        | .row =>
          { t with computed_x := x, computed_y := y,
                   computed_width := pyOr t.width aw,
                   computed_height := pyOr t.height ah,
                   children :=
                     rowGo t.children (sumFlex t.children)
                       (aw - 2 * (t.children.length : Int))
                       t.padding ah t.children.length t.padding }
        | .column =>
          { t with computed_x := x, computed_y := y,
                   computed_width := pyOr t.width aw,
                   computed_height := pyOr t.height ah,
                   children :=
                     colGo t.children (sumFlex t.children)
                       (ah - 2 * (t.children.length : Int))
                       t.padding aw t.children.length t.padding } := by
  rw [calcLayoutXY]

theorem eraseComputed_eq (t : YogaNode) :
    eraseComputed t =
      { t with computed_x := 0, computed_y := 0,
               computed_width := 0, computed_height := 0,
               children := eraseList t.children } := by
  rw [eraseComputed]

theorem eraseList_nil : eraseList [] = [] := by
  rw [eraseList]

theorem eraseList_cons (c : YogaNode) (cs : List YogaNode) :
    eraseList (c :: cs) = eraseComputed c :: eraseList cs := by
  rw [eraseList]

/-- The computed width written by the layout pass: the node's own width if
truthy, else the size handed down by the caller. -/
theorem calcLayoutXY_computed_width (t : YogaNode) (x y aw ah : Int) :
    (calcLayoutXY t x y aw ah).computed_width = pyOr t.width aw := by
  rw [calcLayoutXY_eq]
  split
  · rfl
  · split <;> rfl

theorem calcLayoutXY_computed_height (t : YogaNode) (x y aw ah : Int) :
    (calcLayoutXY t x y aw ah).computed_height = pyOr t.height ah := by
  rw [calcLayoutXY_eq]
  split
  · rfl
  · split <;> rfl

theorem calcLayoutXY_computed_x (t : YogaNode) (x y aw ah : Int) :
    (calcLayoutXY t x y aw ah).computed_x = x := by
  rw [calcLayoutXY_eq]
  split
  · rfl
  · split <;> rfl

theorem calcLayoutXY_computed_y (t : YogaNode) (x y aw ah : Int) :
    (calcLayoutXY t x y aw ah).computed_y = y := by
  rw [calcLayoutXY_eq]
  split
  · rfl
  · split <;> rfl

/-- The widths `_layout_row` assigns: each child of a row parent ends up
with exactly its `mainShare`. -/
theorem rowGo_widths (cs : List YogaNode) (G : Nat) (r p ah : Int) (n : Nat) :
    ∀ curx, (rowGo cs G r p ah n curx).map (fun c => c.computed_width) =
      cs.map (fun c => mainShare c.width c.flex_grow G r n) := by
  induction cs with
  | nil => intro curx; simp [rowGo_nil]
  | cons c rest ih =>
    intro curx
    rw [rowGo_cons]
    simp only [List.map_cons, calcLayoutXY_computed_width, pyOr_mainShare, ih]

/-- The heights `_layout_column` assigns, mirror of `rowGo_widths`. -/
theorem colGo_heights (cs : List YogaNode) (G : Nat) (r p aw : Int) (n : Nat) :
    ∀ cury, (colGo cs G r p aw n cury).map (fun c => c.computed_height) =
      cs.map (fun c => mainShare c.height c.flex_grow G r n) := by
  induction cs with
  | nil => intro cury; simp [colGo_nil]
  | cons c rest ih =>
    intro cury
    rw [colGo_cons]
    simp only [List.map_cons, calcLayoutXY_computed_height, pyOr_mainShare, ih]

/-- After laying out a Row parent, each child's computed width is exactly
its `mainShare` of `aw - 2 * n`. -/
theorem layout_row_widths (t : YogaNode) (aw ah : Int)
    (hrow : t.flex_direction = FlexDirection.row) :
    (calculateLayout t aw ah).children.map (fun c => c.computed_width) =
      t.children.map (fun c =>
        mainShare c.width c.flex_grow (sumFlex t.children)
          (aw - 2 * (t.children.length : Int)) t.children.length) := by
  rw [calculateLayout, calcLayoutXY_eq]
  split
  · rename_i h
    rw [List.isEmpty_iff] at h
    simp [h]
  · rw [hrow]
    simp [rowGo_widths]

/-- Column mirror of `layout_row_widths`. -/
theorem layout_col_heights (t : YogaNode) (aw ah : Int)
    (hcol : t.flex_direction = FlexDirection.column) :
    (calculateLayout t aw ah).children.map (fun c => c.computed_height) =
      t.children.map (fun c =>
        mainShare c.height c.flex_grow (sumFlex t.children)
          (ah - 2 * (t.children.length : Int)) t.children.length) := by
  rw [calculateLayout, calcLayoutXY_eq]
  split
  · rename_i h
    rw [List.isEmpty_iff] at h
    simp [h]
  · rw [hcol]
    simp [colGo_heights]

/-- C2, amended: after laying out a Row parent, the i-th child's
computed width is exactly its `mainShare`: its explicit width if truthy,
else `int((aw - 2*n) * g / G)` truncated toward zero when `G > 0` and
`g > 0`, else `(aw - 2*n) // n` — where `n` is the number of children. The
space divided is `aw - 2*n`, not the parent's content width, and leftover
cells from truncation are dropped, not assigned to the last child. -/
theorem C2_row_shares (t : YogaNode) (aw ah : Int)
    (hrow : t.flex_direction = FlexDirection.row) :
    (calculateLayout t aw ah).children.map (fun c => c.computed_width) =
      t.children.map (fun c =>
        mainShare c.width c.flex_grow (sumFlex t.children)
          (aw - 2 * (t.children.length : Int)) t.children.length) :=
  layout_row_widths t aw ah hrow

theorem C2_row_shares_witness :
    c2root.flex_direction = FlexDirection.row ∧
    (calculateLayout c2root 11 5).children.map (fun c => c.computed_width) =
      c2root.children.map (fun c =>
        mainShare c.width c.flex_grow (sumFlex c2root.children)
          (11 - 2 * (c2root.children.length : Int)) c2root.children.length) :=
  ⟨rfl, C2_row_shares c2root 11 5 rfl⟩

/-- C2 counterexample: for a Row parent of computed width 11 (padding 1, no
border, so content width 9) with two `flex_grow=1` children, the children's
computed widths sum to 6, not to the parent's content width 9 (and not to
the divided space 7 either: the leftover cell is dropped, the last child
does not receive it). -/
theorem C2_counterexample :
    ((calculateLayout c2root 11 5).children.map (fun c => c.computed_width))
        = [3, 3] ∧
    (3 : Int) + 3 = 6 ∧
    (calculateLayout c2root 11 5).computed_width
        - 2 * (calculateLayout c2root 11 5).padding = 9 ∧
    ((6 : Int) ≠ 9) := by
  refine ⟨?_, by decide, ?_, by decide⟩
  · simp [calculateLayout, calcLayoutXY_eq, rowGo_cons, rowGo_nil, c2root,
      c3kid, sumFlex, mainShare, pyTruthy, pyOr, calcLayoutXY_computed_width]
    decide
  · simp [calculateLayout, calcLayoutXY_eq, c2root, c3kid, pyOr]

/-- C3 counterexample: in the 10 x 5 Row scenario (padding 0, no border,
two `flex_grow=1` children) the code assigns child widths 3 and 3 with the
second child at x 3 — not width 5 each with the second child at x 5 as the
claim states. -/
theorem C3_counterexample :
    (calculateLayout c3root 10 5).children.map (fun c => c.computed_width)
        = [3, 3] ∧
    (calculateLayout c3root 10 5).children.map (fun c => c.computed_x)
        = [0, 3] ∧
    ¬ ((calculateLayout c3root 10 5).children.map (fun c => c.computed_width)
        = [5, 5]) := by
  have hw : (calculateLayout c3root 10 5).children.map (fun c => c.computed_width)
      = [3, 3] := by
    simp [calculateLayout, calcLayoutXY_eq, rowGo_cons, rowGo_nil, c3root,
      c3kid, sumFlex, mainShare, pyTruthy, pyOr, calcLayoutXY_computed_width]
    decide
  have hx : (calculateLayout c3root 10 5).children.map (fun c => c.computed_x)
      = [0, 3] := by
    simp [calculateLayout, calcLayoutXY_eq, rowGo_cons, rowGo_nil, c3root,
      c3kid, sumFlex, mainShare, pyTruthy, pyOr, calcLayoutXY_computed_x]
    decide
  refine ⟨hw, hx, ?_⟩
  rw [hw]
  decide

/-- C3, amended: in the 10 x 5 Row scenario with two `flex_grow=1` children
and padding 0, each child gets computed size 3 x 5; the first child sits at
(0, 0) and the second at (3, 0). (The code divides
`available_width - 2 * len(children) = 6` rather than the full 10, and each
child receives `int(6 * 1 / 2) = 3`.) -/
theorem C3_amended :
    (calculateLayout c3root 10 5).children.map (fun c => c.computed_width)
        = [3, 3] ∧
    (calculateLayout c3root 10 5).children.map (fun c => c.computed_height)
        = [5, 5] ∧
    (calculateLayout c3root 10 5).children.map (fun c => c.computed_x)
        = [0, 3] ∧
    (calculateLayout c3root 10 5).children.map (fun c => c.computed_y)
        = [0, 0] := by
  refine ⟨?_, ?_, ?_, ?_⟩
  · simp [calculateLayout, calcLayoutXY_eq, rowGo_cons, rowGo_nil, c3root,
      c3kid, sumFlex, mainShare, pyTruthy, pyOr, calcLayoutXY_computed_width]
    decide
  · simp [calculateLayout, calcLayoutXY_eq, rowGo_cons, rowGo_nil, c3root,
      c3kid, sumFlex, mainShare, pyTruthy, pyOr, calcLayoutXY_computed_height]
  · simp [calculateLayout, calcLayoutXY_eq, rowGo_cons, rowGo_nil, c3root,
      c3kid, sumFlex, mainShare, pyTruthy, pyOr, calcLayoutXY_computed_x]
    decide
  · simp [calculateLayout, calcLayoutXY_eq, rowGo_cons, rowGo_nil, c3root,
      c3kid, sumFlex, mainShare, pyTruthy, pyOr, calcLayoutXY_computed_y]

/-- C4: in the 12 x 3 Row scenario with one `width=4` child and one
`flex_grow=1` child, layout assigns the fixed child computed width 4 and
the flex child computed width 8
(`remaining = 12 - 2*2 = 8`, `int(8 * 1 / 1) = 8`). -/
theorem C4_fixed_plus_flex :
    (calculateLayout c4root 12 3).children.map (fun c => c.computed_width)
        = [4, 8] := by
  simp [calculateLayout, calcLayoutXY_eq, rowGo_cons, rowGo_nil, c4root,
    leafW, c3kid, sumFlex, mainShare, pyTruthy, pyOr, calcLayoutXY_computed_width]

/-- C8 counterexample: a Row parent laid out at available width 0 with one
default child assigns that child computed width `(0 - 2) // 1 = -2 < 0`;
no clamping to 0 happens anywhere in the layout pass. -/
theorem C8_counterexample :
    (calculateLayout c8root 0 5).children.map (fun c => c.computed_width)
        = [-2] ∧
    ¬ ((0 : Int) ≤ -2) := by
  constructor
  · simp [calculateLayout, calcLayoutXY_eq, rowGo_cons, rowGo_nil, c8root,
      defaultLeaf, sumFlex, mainShare, pyTruthy, pyOr, calcLayoutXY_computed_width]
  · decide

/-- C8, amended: the layout pass performs no clamping at all — a node with
an explicit non-zero width keeps it verbatim as its computed width, even
when it is negative, and children of a too-small parent receive negative
computed sizes (see the counterexample). -/
theorem C8_no_clamping (w : Int) (hw : w ≠ 0) (aw ah : Int) :
    (calculateLayout (leafW w) aw ah).computed_width = w := by
  rw [calculateLayout, calcLayoutXY_computed_width]
  simp [leafW, pyOr, hw]

theorem C8_no_clamping_witness :
    ((-5 : Int) ≠ 0) ∧ (calculateLayout (leafW (-5)) 7 7).computed_width = -5 :=
  ⟨by decide, C8_no_clamping (-5) (by decide) 7 7⟩

/-- Equality of erased trees determines every style field and the erased
children lists. -/
theorem erase_eq_elim {t t' : YogaNode} (h : eraseComputed t = eraseComputed t') :
    t.content = t'.content ∧ t.flex_direction = t'.flex_direction ∧
    t.justify_content = t'.justify_content ∧ t.align_items = t'.align_items ∧
    t.width = t'.width ∧ t.height = t'.height ∧ t.flex_grow = t'.flex_grow ∧
    t.flex_shrink = t'.flex_shrink ∧ t.flex_basis = t'.flex_basis ∧
    t.margin = t'.margin ∧ t.padding = t'.padding ∧ t.border = t'.border ∧
    t.border_char = t'.border_char ∧ t.corner_char = t'.corner_char ∧
    eraseList t.children = eraseList t'.children := by
  rw [eraseComputed_eq, eraseComputed_eq] at h
  cases t
  cases t'
  simp only [YogaNode.mk.injEq] at h
  simp_all

theorem eraseList_length :
    ∀ {cs cs' : List YogaNode}, eraseList cs = eraseList cs' →
      cs.length = cs'.length := by
  intro cs
  induction cs with
  | nil =>
    intro cs' h
    cases cs' with
    | nil => rfl
    | cons c' r' =>
      rw [eraseList_nil, eraseList_cons] at h
      simp at h
  | cons c r ih =>
    intro cs' h
    cases cs' with
    | nil =>
      rw [eraseList_cons, eraseList_nil] at h
      simp at h
    | cons c' r' =>
      rw [eraseList_cons, eraseList_cons] at h
      injection h with h1 h2
      simp [ih h2]

theorem eraseList_sumFlex :
    ∀ {cs cs' : List YogaNode}, eraseList cs = eraseList cs' →
      sumFlex cs = sumFlex cs' := by
  intro cs
  induction cs with
  | nil =>
    intro cs' h
    cases cs' with
    | nil => rfl
    | cons c' r' =>
      rw [eraseList_nil, eraseList_cons] at h
      simp at h
  | cons c r ih =>
    intro cs' h
    cases cs' with
    | nil =>
      rw [eraseList_cons, eraseList_nil] at h
      simp at h
    | cons c' r' =>
      rw [eraseList_cons, eraseList_cons] at h
      injection h with h1 h2
      have hg := (erase_eq_elim h1).2.2.2.2.2.2.1
      simp only [sumFlex, List.map_cons, List.sum_cons] at *
      rw [hg, ih h2]

/-- Laying out a list of row children does not change its erased image. -/
theorem rowGo_erase (cs : List YogaNode)
    (ih : ∀ c ∈ cs, ∀ x y aw ah,
      eraseComputed (calcLayoutXY c x y aw ah) = eraseComputed c) :
    ∀ G r p ah n curx, eraseList (rowGo cs G r p ah n curx) = eraseList cs := by
  induction cs with
  | nil => intro G r p ah n curx; rw [rowGo_nil]
  | cons c rest ihl =>
    intro G r p ah n curx
    rw [rowGo_cons, eraseList_cons, eraseList_cons]
    rw [ih c (by simp) _ _ _ _]
    rw [ihl (fun c hm => ih c (by simp [hm]))]

theorem colGo_erase (cs : List YogaNode)
    (ih : ∀ c ∈ cs, ∀ x y aw ah,
      eraseComputed (calcLayoutXY c x y aw ah) = eraseComputed c) :
    ∀ G r p aw n cury, eraseList (colGo cs G r p aw n cury) = eraseList cs := by
  induction cs with
  | nil => intro G r p aw n cury; rw [colGo_nil]
  | cons c rest ihl =>
    intro G r p aw n cury
    rw [colGo_cons, eraseList_cons, eraseList_cons]
    rw [ih c (by simp) _ _ _ _]
    rw [ihl (fun c hm => ih c (by simp [hm]))]

/-- The layout pass never changes the erased image of the tree: it writes
only computed fields. -/
theorem calcLayoutXY_erase :
    ∀ t : YogaNode, ∀ x y aw ah : Int,
      eraseComputed (calcLayoutXY t x y aw ah) = eraseComputed t := by
  refine treeInduction
    (fun t => ∀ x y aw ah,
      eraseComputed (calcLayoutXY t x y aw ah) = eraseComputed t) ?_
  intro t IH x y aw ah
  rw [calcLayoutXY_eq]
  split
  · rw [eraseComputed_eq, eraseComputed_eq]
  · split
    · rw [eraseComputed_eq, eraseComputed_eq]
      simp only []
      rw [rowGo_erase t.children IH]
    · rw [eraseComputed_eq, eraseComputed_eq]
      simp only []
      rw [colGo_erase t.children IH]

/-- C9: `calculate_layout` writes only the computed geometry fields — the
erased image of the tree (every style field, the children shape, all
recursively) is unchanged by a layout pass. -/
theorem C9_layout_writes_only_computed (t : YogaNode) (aw ah : Int) :
    eraseComputed (calculateLayout t aw ah) = eraseComputed t := by
  rw [calculateLayout]
  exact calcLayoutXY_erase t _ _ _ _

/-- Row layout output is determined by the erased image of the children. -/
theorem rowGo_congr (cs : List YogaNode) :
    ∀ cs' : List YogaNode,
      (∀ c ∈ cs, ∀ c' : YogaNode, eraseComputed c = eraseComputed c' →
        ∀ x y aw ah, calcLayoutXY c x y aw ah = calcLayoutXY c' x y aw ah) →
      eraseList cs = eraseList cs' →
      ∀ G r p ah n curx,
        rowGo cs G r p ah n curx = rowGo cs' G r p ah n curx := by
  induction cs with
  | nil =>
    intro cs' _ h
    cases cs' with
    | nil => intro G r p ah n curx; rfl
    | cons c' r' =>
      rw [eraseList_nil, eraseList_cons] at h
      simp at h
  | cons c rest ihl =>
    intro cs' ih h
    cases cs' with
    | nil =>
      rw [eraseList_cons, eraseList_nil] at h
      simp at h
    | cons c' rest' =>
      rw [eraseList_cons, eraseList_cons] at h
      injection h with h1 h2
      intro G r p ah n curx
      rw [rowGo_cons, rowGo_cons]
      obtain ⟨-, -, -, -, hwid, -, hgrow, -, -, -, -, -, -, -, -⟩ :=
        erase_eq_elim h1
      have hshare : mainShare c'.width c'.flex_grow G r n
          = mainShare c.width c.flex_grow G r n := by rw [hwid, hgrow]
      rw [hshare]
      rw [ih c (by simp) c' h1 curx p (mainShare c.width c.flex_grow G r n) (ah - 2 * p)]
      rw [ihl rest' (fun d hm => ih d (by simp [hm])) h2 G r p ah n
        (curx + mainShare c.width c.flex_grow G r n + p)]

/-- Column mirror of `rowGo_congr`. -/
theorem colGo_congr (cs : List YogaNode) :
    ∀ cs' : List YogaNode,
      (∀ c ∈ cs, ∀ c' : YogaNode, eraseComputed c = eraseComputed c' →
        ∀ x y aw ah, calcLayoutXY c x y aw ah = calcLayoutXY c' x y aw ah) →
      eraseList cs = eraseList cs' →
      ∀ G r p aw n cury,
        colGo cs G r p aw n cury = colGo cs' G r p aw n cury := by
  induction cs with
  | nil =>
    intro cs' _ h
    cases cs' with
    | nil => intro G r p aw n cury; rfl
    | cons c' r' =>
      rw [eraseList_nil, eraseList_cons] at h
      simp at h
  | cons c rest ihl =>
    intro cs' ih h
    cases cs' with
    | nil =>
      rw [eraseList_cons, eraseList_nil] at h
      simp at h
    | cons c' rest' =>
      rw [eraseList_cons, eraseList_cons] at h
      injection h with h1 h2
      intro G r p aw n cury
      rw [colGo_cons, colGo_cons]
      obtain ⟨-, -, -, -, -, hhei, hgrow, -, -, -, -, -, -, -, -⟩ :=
        erase_eq_elim h1
      have hshare : mainShare c'.height c'.flex_grow G r n
          = mainShare c.height c.flex_grow G r n := by rw [hhei, hgrow]
      rw [hshare]
      rw [ih c (by simp) c' h1 p cury (aw - 2 * p) (mainShare c.height c.flex_grow G r n)]
      rw [ihl rest' (fun d hm => ih d (by simp [hm])) h2 G r p aw n
        (cury + mainShare c.height c.flex_grow G r n + p)]

/-- The whole layout result is determined by the erased image of the input
tree (computed geometry left over from earlier passes never influences a
layout pass, beyond the root coordinates passed in explicitly). -/
theorem calcLayoutXY_congr :
    ∀ t t' : YogaNode, eraseComputed t = eraseComputed t' →
      ∀ x y aw ah, calcLayoutXY t x y aw ah = calcLayoutXY t' x y aw ah := by
  refine treeInduction (fun t => ∀ t', eraseComputed t = eraseComputed t' →
    ∀ x y aw ah, calcLayoutXY t x y aw ah = calcLayoutXY t' x y aw ah) ?_
  intro t IH t' h x y aw ah
  obtain ⟨hcon, hdir, hjus, hali, hwid, hhei, hgrow, hshr, hbas, hmar, hpad,
    hbor, hbc, hcc, hch⟩ := erase_eq_elim h
  have hlen := eraseList_length hch
  have hsum := eraseList_sumFlex hch
  have hrow := rowGo_congr t.children t'.children (fun c hm => IH c hm) hch
  have hcol := colGo_congr t.children t'.children (fun c hm => IH c hm) hch
  rw [calcLayoutXY_eq, calcLayoutXY_eq]
  obtain ⟨con, dir, jus, ali, wid, hei, gro, shr, bas, mar, pad, bor, bc, cc,
    cs, cx, cy, cw2, ch2⟩ := t
  obtain ⟨con', dir', jus', ali', wid', hei', gro', shr', bas', mar', pad',
    bor', bc', cc', cs', cx', cy', cw2', ch2'⟩ := t'
  subst hcon hdir hjus hali hwid hhei hgrow hshr hbas hmar hpad hbor hbc hcc
  have hemp : cs.isEmpty = cs'.isEmpty := by
    cases cs <;> cases cs' <;> simp_all
  rw [hemp]
  split
  · rename_i hne
    have hcs' : cs' = [] := List.isEmpty_iff.mp hne
    have hcs : cs = [] := by
      subst hcs'
      exact List.length_eq_zero.mp hlen
    subst hcs hcs'
    rfl
  · cases dir
    · rw [hsum, hlen, hrow]
    · rw [hsum, hlen, hcol]

/-- One-step unfolding of `renderNode`. -/
theorem renderNode_eq (t : YogaNode) (dx dy : Int) (g : Grid) (tw th : Nat) :
    renderNode t dx dy g tw th =
      ({ t with computed_x := t.computed_x + dx,
                computed_y := t.computed_y + dy,
                children :=
                  (renderKids t.children (clampedX t dx tw) (clampedY t dy th)
                    (paintSelf t dx dy g tw th) tw th).1 },
       (renderKids t.children (clampedX t dx tw) (clampedY t dy th)
         (paintSelf t dx dy g tw th) tw th).2) := by
  rw [renderNode]

theorem renderKids_nil (x y : Int) (g : Grid) (tw th : Nat) :
    renderKids [] x y g tw th = ([], g) := by
  rw [renderKids]

theorem renderKids_cons (c : YogaNode) (rest : List YogaNode) (x y : Int)
    (g : Grid) (tw th : Nat) :
    renderKids (c :: rest) x y g tw th =
      ((renderNode c x y g tw th).1 ::
        (renderKids rest x y (renderNode c x y g tw th).2 tw th).1,
       (renderKids rest x y (renderNode c x y g tw th).2 tw th).2) := by
  rw [renderKids]

/-- Rendering a children list preserves its erased image. -/
theorem renderKids_erase (tw th : Nat) (cs : List YogaNode)
    (ih : ∀ c ∈ cs, ∀ dx dy g,
      eraseComputed ((renderNode c dx dy g tw th).1) = eraseComputed c) :
    ∀ x y g, eraseList ((renderKids cs x y g tw th).1) = eraseList cs := by
  induction cs with
  | nil => intro x y g; rw [renderKids_nil]
  | cons c rest ihl =>
    intro x y g
    rw [renderKids_cons]
    simp only []
    rw [eraseList_cons, eraseList_cons]
    rw [ih c (by simp) x y g]
    rw [ihl (fun d hm => ih d (by simp [hm])) x y (renderNode c x y g tw th).2]

/-- The render pass changes only computed coordinates: the erased image of
the tree after `_render_node` is that of the input. -/
theorem renderNode_erase :
    ∀ t : YogaNode, ∀ dx dy : Int, ∀ g : Grid, ∀ tw th : Nat,
      eraseComputed ((renderNode t dx dy g tw th).1) = eraseComputed t := by
  refine treeInduction (fun t => ∀ dx dy g tw th,
    eraseComputed ((renderNode t dx dy g tw th).1) = eraseComputed t) ?_
  intro t IH dx dy g tw th
  rw [renderNode_eq]
  simp only []
  rw [eraseComputed_eq, eraseComputed_eq]
  simp only []
  rw [renderKids_erase tw th t.children (fun c hm dx2 dy2 g2 => IH c hm dx2 dy2 g2 tw th)]

theorem renderNode_fst_x (t : YogaNode) (dx dy : Int) (g : Grid) (tw th : Nat) :
    (renderNode t dx dy g tw th).1.computed_x = t.computed_x + dx := by
  rw [renderNode_eq]

theorem renderNode_fst_y (t : YogaNode) (dx dy : Int) (g : Grid) (tw th : Nat) :
    (renderNode t dx dy g tw th).1.computed_y = t.computed_y + dy := by
  rw [renderNode_eq]

/-- C1: rendering is idempotent. A second `render` call on the tree left
behind by a first call, at the same terminal size, returns the identical
output string and leaves every node's computed_x / computed_y /
computed_width / computed_height exactly as the first call did: the layout
pass recomputes all geometry from scratch, so the in-place child-offset
mutation performed while painting does not accumulate across calls. -/
theorem C1_render_idempotent (t : YogaNode) (tw th : Nat) :
    render ((render t tw th).2) tw th = render t tw th := by
  have ht1 : (render t tw th).2
      = (renderNode (calculateLayout t (tw : Int) (th : Int)) 0 0 blankGrid
          tw th).1 := by
    rw [render, renderPass]
  have hx : (render t tw th).2.computed_x = t.computed_x := by
    rw [ht1, renderNode_fst_x, calculateLayout, calcLayoutXY_computed_x]
    simp
  have hy : (render t tw th).2.computed_y = t.computed_y := by
    rw [ht1, renderNode_fst_y, calculateLayout, calcLayoutXY_computed_y]
    simp
  have he : eraseComputed ((render t tw th).2) = eraseComputed t := by
    rw [ht1, renderNode_erase, calculateLayout, calcLayoutXY_erase]
  have hL : calculateLayout ((render t tw th).2) (tw : Int) (th : Int)
      = calculateLayout t (tw : Int) (th : Int) := by
    rw [calculateLayout, calculateLayout, hx, hy]
    exact calcLayoutXY_congr _ _ he t.computed_x t.computed_y _ _
  have hpass : renderPass ((render t tw th).2) tw th = renderPass t tw th := by
    rw [renderPass, renderPass, hL]
  have h1 : render ((render t tw th).2) tw th
      = (String.intercalate "\n"
          (gridLines (renderPass ((render t tw th).2) tw th).2 tw th),
         (renderPass ((render t tw th).2) tw th).1) := rfl
  have h2 : render t tw th
      = (String.intercalate "\n" (gridLines (renderPass t tw th).2 tw th),
         (renderPass t tw th).1) := rfl
  rw [h1, hpass, h2]

/-- C7: the string returned by `render` is exactly `th` lines joined by
newline, each line exactly `tw` characters: the serialisation of the
`th x tw` grid the source allocates. -/
theorem C7_output_shape (t : YogaNode) (tw th : Nat) :
    (render t tw th).1
        = String.intercalate "\n" (gridLines (renderPass t tw th).2 tw th) ∧
    (gridLines (renderPass t tw th).2 tw th).length = th ∧
    (gridLines (renderPass t tw th).2 tw th).all
        (fun s => s.length == tw) = true := by
  refine ⟨rfl, ?_, ?_⟩
  · rw [gridLines, List.length_map, List.length_range]
  · rw [List.all_eq_true]
    intro s hs
    rw [gridLines] at hs
    simp only [List.mem_map, List.mem_range] at hs
    obtain ⟨r, _, hsr⟩ := hs
    subst hsr
    have hmk : ∀ l : List Char, (String.mk l).length = l.length := fun l => rfl
    simp only [beq_iff_eq]
    rw [hmk, List.length_map, List.length_range]

theorem writeCell_ne {g : Grid} {rt ct : Int} {ch : Char} {r c : Int}
    (hne : ¬ (r = rt ∧ c = ct)) : writeCell g rt ct ch r c = g r c := by
  simp only [writeCell]
  rw [if_neg hne]

theorem writeCell_self (g : Grid) (r c : Int) (ch : Char) :
    writeCell g r c ch r c = ch := by
  simp [writeCell]

/-- A guarded write whose target is inside the terminal rectangle does not
change any cell outside it. -/
theorem writeCell_out {g : Grid} {rt ct : Int} {ch : Char} {tw th : Nat}
    {r c : Int} (ho : outside tw th r c) (h1 : 0 ≤ rt) (h2 : rt < (th : Int))
    (h3 : 0 ≤ ct) (h4 : ct < (tw : Int)) : writeCell g rt ct ch r c = g r c := by
  apply writeCell_ne
  rintro ⟨rfl, rfl⟩
  rcases ho with h | h | h | h <;> omega

theorem writeIf_out {cond : Prop} [Decidable cond] {g : Grid} {rt ct : Int}
    {ch : Char} {tw th : Nat} {r c : Int} (ho : outside tw th r c)
    (himp : cond → 0 ≤ rt ∧ rt < (th : Int) ∧ 0 ≤ ct ∧ ct < (tw : Int)) :
    writeIf cond g rt ct ch r c = g r c := by
  rw [writeIf]
  split
  · rename_i hc
    obtain ⟨h1, h2, h3, h4⟩ := himp hc
    exact writeCell_out ho h1 h2 h3 h4
  · rfl

theorem foldl_grid_out {β : Type} (l : List β) (f : Grid → β → Grid)
    (g : Grid) (r c : Int) (hf : ∀ g1 b, (f g1 b) r c = g1 r c) :
    (l.foldl f g) r c = g r c := by
  induction l generalizing g with
  | nil => rfl
  | cons b rest ih => rw [List.foldl_cons, ih, hf]

theorem paintTB_out (g : Grid) (x y w h : Int) (tw th : Nat) (r c : Int)
    (hx : 0 ≤ x) (hy : 0 ≤ y) (hh : 1 ≤ h) (ho : outside tw th r c) :
    paintTB g x y w h tw th r c = g r c := by
  unfold paintTB
  apply foldl_grid_out
  intro g1 i
  rw [writeIf_out ho (fun hc => by obtain ⟨h1, h2⟩ := hc; omega),
    writeIf_out ho (fun hc => by obtain ⟨h1, h2⟩ := hc; omega)]

theorem paintLR_out (g : Grid) (x y w h : Int) (tw th : Nat) (r c : Int)
    (hx : 0 ≤ x) (hy : 0 ≤ y) (hw : 1 ≤ w) (ho : outside tw th r c) :
    paintLR g x y w h tw th r c = g r c := by
  unfold paintLR
  apply foldl_grid_out
  intro g1 i
  rw [writeIf_out ho (fun hc => by obtain ⟨h1, h2⟩ := hc; omega),
    writeIf_out ho (fun hc => by obtain ⟨h1, h2⟩ := hc; omega)]

theorem paintCorners_out (g : Grid) (x y w h : Int) (tw th : Nat) (r c : Int)
    (hx : 0 ≤ x) (hy : 0 ≤ y) (hw : 1 ≤ w) (hh : 1 ≤ h)
    (ho : outside tw th r c) :
    paintCorners g x y w h tw th r c = g r c := by
  unfold paintCorners
  rw [writeIf_out ho (fun hc => by obtain ⟨h1, h2⟩ := hc; omega),
    writeIf_out ho (fun hc => by obtain ⟨h1, h2⟩ := hc; omega),
    writeIf_out ho (fun hc => by obtain ⟨h1, h2⟩ := hc; omega),
    writeIf_out ho (fun hc => by obtain ⟨h1, h2⟩ := hc; omega)]

theorem paintChars_out (cl : List Char) (y : Int) (lidx : Nat) (x : Int)
    (tw th : Nat) (r c : Int) (hx : 0 ≤ x) (hy : 0 ≤ y)
    (hrow : y + 1 + (lidx : Int) < (th : Int)) (ho : outside tw th r c) :
    ∀ (g : Grid) (cidx : Nat), paintChars g cl cidx y lidx x tw r c = g r c := by
  induction cl with
  | nil => intro g cidx; rw [paintChars]
  | cons ch rest ih =>
    intro g cidx
    rw [paintChars]
    rw [ih]
    rw [writeIf_out ho (fun hc => by omega)]

theorem paintContent_out (ls : List String) (x y w : Int) (tw th : Nat)
    (r c : Int) (hx : 0 ≤ x) (hy : 0 ≤ y) (ho : outside tw th r c) :
    ∀ (g : Grid) (lidx : Nat), paintContent g ls lidx x y w tw th r c = g r c := by
  induction ls with
  | nil => intro g lidx; rw [paintContent]
  | cons line rest ih =>
    intro g lidx
    rw [paintContent]
    rw [ih]
    by_cases hA : y + 1 + (lidx : Int) < (th : Int)
    · rw [if_pos hA]
      rw [paintChars_out _ _ _ _ _ _ _ _ hx hy hA ho]
    · rw [if_neg hA]

theorem clampedX_nonneg (t : YogaNode) (dx : Int) (tw : Nat) :
    0 ≤ clampedX t dx tw :=
  le_max_left 0 _

theorem clampedY_nonneg (t : YogaNode) (dy : Int) (th : Nat) :
    0 ≤ clampedY t dy th :=
  le_max_left 0 _

/-- The whole own-painting step of a node never touches a cell outside the
terminal rectangle. -/
theorem paintSelf_out (t : YogaNode) (dx dy : Int) (g : Grid) (tw th : Nat)
    (r c : Int) (ho : outside tw th r c) :
    paintSelf t dx dy g tw th r c = g r c := by
  rw [paintSelf]
  have hx := clampedX_nonneg t dx tw
  have hy := clampedY_nonneg t dy th
  by_cases hB : t.border = true ∧ 2 < clippedW t dx tw ∧ 2 < clippedH t dy th
  · obtain ⟨hb1, hb2, hb3⟩ := hB
    by_cases hC : t.content ≠ "" ∧ 2 < clippedW t dx tw ∧ 2 < clippedH t dy th
    · rw [if_pos hC, if_pos ⟨hb1, hb2, hb3⟩]
      rw [paintContent_out _ _ _ _ _ _ _ _ hx hy ho]
      rw [paintCorners_out _ _ _ _ _ _ _ _ _ hx hy (by omega) (by omega) ho]
      rw [paintLR_out _ _ _ _ _ _ _ _ _ hx hy (by omega) ho]
      rw [paintTB_out _ _ _ _ _ _ _ _ _ hx hy (by omega) ho]
    · rw [if_neg hC, if_pos ⟨hb1, hb2, hb3⟩]
      rw [paintCorners_out _ _ _ _ _ _ _ _ _ hx hy (by omega) (by omega) ho]
      rw [paintLR_out _ _ _ _ _ _ _ _ _ hx hy (by omega) ho]
      rw [paintTB_out _ _ _ _ _ _ _ _ _ hx hy (by omega) ho]
  · by_cases hC : t.content ≠ "" ∧ 2 < clippedW t dx tw ∧ 2 < clippedH t dy th
    · rw [if_pos hC, if_neg hB]
      rw [paintContent_out _ _ _ _ _ _ _ _ hx hy ho]
    · rw [if_neg hC, if_neg hB]

theorem renderNode_snd (t : YogaNode) (dx dy : Int) (g : Grid) (tw th : Nat) :
    (renderNode t dx dy g tw th).2 =
      (renderKids t.children (clampedX t dx tw) (clampedY t dy th)
        (paintSelf t dx dy g tw th) tw th).2 := by
  rw [renderNode_eq]

theorem renderKids_snd_cons (c : YogaNode) (rest : List YogaNode) (x y : Int)
    (g : Grid) (tw th : Nat) :
    (renderKids (c :: rest) x y g tw th).2 =
      (renderKids rest x y (renderNode c x y g tw th).2 tw th).2 := by
  rw [renderKids_cons]

theorem renderKids_out (tw th : Nat) (cs : List YogaNode)
    (ih : ∀ d ∈ cs, ∀ dx dy g r c, outside tw th r c →
      (renderNode d dx dy g tw th).2 r c = g r c) :
    ∀ x y g r c, outside tw th r c →
      (renderKids cs x y g tw th).2 r c = g r c := by
  induction cs with
  | nil =>
    intro x y g r c ho
    rw [renderKids_nil]
  | cons c0 rest ihl =>
    intro x y g r c ho
    rw [renderKids_snd_cons]
    rw [ihl (fun d hm => ih d (by simp [hm])) x y _ r c ho]
    exact ih c0 (by simp) x y g r c ho

/-- C5: painting never writes outside the terminal rectangle. For every
node (whatever its computed rectangle, including negative coordinates or
sizes larger than the terminal), every cell of the grid outside
`[0, th) x [0, tw)` is left exactly as it was: the clamping at the top of
`_render_node` plus the per-write bounds guards clip the painted rectangle
to the terminal, and the portion outside is silently dropped. -/
theorem C5_clipping (t : YogaNode) (dx dy : Int) (g : Grid) (tw th : Nat)
    (r c : Int) (ho : outside tw th r c) :
    (renderNode t dx dy g tw th).2 r c = g r c := by
  refine treeInduction (fun t => ∀ dx dy g r c, outside tw th r c →
    (renderNode t dx dy g tw th).2 r c = g r c) ?_ t dx dy g r c ho
  intro t0 IH dx0 dy0 g0 r0 c0 ho0
  rw [renderNode_snd]
  rw [renderKids_out tw th t0.children (fun d hm => IH d hm) _ _ _ r0 c0 ho0]
  exact paintSelf_out t0 dx0 dy0 g0 tw th r0 c0 ho0

theorem C5_clipping_witness :
    outside 5 7 7 1 ∧ (renderNode c5node 0 0 blankGrid 5 7).2 7 1 = blankGrid 7 1 :=
  ⟨by decide, C5_clipping c5node 0 0 blankGrid 5 7 7 1 (by decide)⟩

theorem writeIf_ne {cond : Prop} [Decidable cond] {g : Grid} {rt ct : Int}
    {ch : Char} {r c : Int} (hne : ¬ (r = rt ∧ c = ct)) :
    writeIf cond g rt ct ch r c = g r c := by
  rw [writeIf]
  split
  · exact writeCell_ne hne
  · rfl

theorem paintChars_row_ne (cl : List Char) (y : Int) (lidx : Nat) (x : Int)
    (tw : Nat) (r c : Int) (hr : r ≠ y + 1 + (lidx : Int)) :
    ∀ (g : Grid) (cidx : Nat), paintChars g cl cidx y lidx x tw r c = g r c := by
  induction cl with
  | nil => intro g cidx; rw [paintChars]
  | cons ch rest ih =>
    intro g cidx
    rw [paintChars, ih]
    rw [writeIf_ne (fun hc => hr hc.1)]

theorem paintContent_row_lt (ls : List String) (x y w : Int) (tw th : Nat)
    (r c : Int) :
    ∀ (g : Grid) (lidx : Nat), r < y + 1 + (lidx : Int) →
      paintContent g ls lidx x y w tw th r c = g r c := by
  induction ls with
  | nil => intro g lidx hr; rw [paintContent]
  | cons line rest ih =>
    intro g lidx hr
    rw [paintContent]
    rw [ih _ (lidx + 1) (by push_cast; omega)]
    by_cases hA : y + 1 + (lidx : Int) < (th : Int)
    · rw [if_pos hA, paintChars_row_ne _ _ _ _ _ _ _ (by omega)]
    · rw [if_neg hA]

/-- After the four corner writes, the top-left cell holds the top-left
corner glyph (the later corner writes target different cells when the
rectangle is at least 3 x 3). -/
theorem paintCorners_topleft (g : Grid) (x y w h : Int) (tw th : Nat)
    (hyth : y < (th : Int)) (hxtw : x < (tw : Int)) (hw : 2 < w) (hh : 2 < h) :
    paintCorners g x y w h tw th y x = '┌' := by
  rw [paintCorners]
  rw [writeIf_ne (by rintro ⟨h1, h2⟩; omega)]
  rw [writeIf_ne (by rintro ⟨h1, h2⟩; omega)]
  rw [writeIf_ne (by rintro ⟨h1, h2⟩; omega)]
  rw [writeIf, if_pos ⟨hyth, hxtw⟩]
  exact writeCell_self g y x _

theorem clippedW_le (t : YogaNode) (dx : Int) (tw : Nat) :
    clippedW t dx tw ≤ (tw : Int) - clampedX t dx tw :=
  min_le_right _ _

theorem clippedH_le (t : YogaNode) (dy : Int) (th : Nat) :
    clippedH t dy th ≤ (th : Int) - clampedY t dy th :=
  min_le_right _ _

/-- C6: a bordered node whose clipped width or height is below 3 paints
nothing at all (no border glyphs, no crash), and when the clipped rectangle
is at least 3 x 3 a border is drawn — its top-left corner glyph lands at
the node's clamped origin. -/
theorem C6_degenerate_border (t : YogaNode) (dx dy : Int) (g : Grid)
    (tw th : Nat) :
    ((clippedW t dx tw < 3 ∨ clippedH t dy th < 3) →
      paintSelf t dx dy g tw th = g) ∧
    (t.border = true → 3 ≤ clippedW t dx tw → 3 ≤ clippedH t dy th →
      paintSelf t dx dy g tw th (clampedY t dy th) (clampedX t dx tw) = '┌') := by
  constructor
  · intro hlt
    have hno : ¬ (2 < clippedW t dx tw ∧ 2 < clippedH t dy th) := by omega
    rw [paintSelf]
    rw [if_neg (fun hc => hno hc.2), if_neg (fun hb => hno hb.2)]
  · intro hb hw hh
    have hxw := clippedW_le t dx tw
    have hyh := clippedH_le t dy th
    have hyth : clampedY t dy th < (th : Int) := by omega
    have hxtw : clampedX t dx tw < (tw : Int) := by omega
    have hcond : t.border = true ∧ 2 < clippedW t dx tw ∧ 2 < clippedH t dy th :=
      ⟨hb, by omega, by omega⟩
    rw [paintSelf]
    by_cases hC : t.content ≠ "" ∧ 2 < clippedW t dx tw ∧ 2 < clippedH t dy th
    · rw [if_pos hC]
      rw [paintContent_row_lt _ _ _ _ _ _ _ _ _ 0 (by push_cast; omega)]
      rw [if_pos hcond]
      exact paintCorners_topleft _ _ _ _ _ tw th hyth hxtw (by omega) (by omega)
    · rw [if_neg hC]
      rw [if_pos hcond]
      exact paintCorners_topleft _ _ _ _ _ tw th hyth hxtw (by omega) (by omega)

theorem C6_degenerate_border_witness :
    (clippedW c6thin 0 10 < 3 ∨ clippedH c6thin 0 5 < 3) ∧
    paintSelf c6thin 0 0 blankGrid 10 5 = blankGrid ∧
    c6wide.border = true ∧ 3 ≤ clippedW c6wide 0 10 ∧ 3 ≤ clippedH c6wide 0 5 ∧
    paintSelf c6wide 0 0 blankGrid 10 5 (clampedY c6wide 0 5)
      (clampedX c6wide 0 10) = '┌' :=
  ⟨by decide,
   (C6_degenerate_border c6thin 0 0 blankGrid 10 5).1 (by decide),
   rfl, by decide, by decide,
   (C6_degenerate_border c6wide 0 0 blankGrid 10 5).2 rfl (by decide) (by decide)⟩

theorem geomOf_eq (t : YogaNode) :
    geomOf t = .node t.computed_x t.computed_y t.computed_width
      t.computed_height (geomList t.children) := by
  rw [geomOf]

theorem mainShare_zero (g G : Nat) (r : Int) (n : Nat) :
    mainShare (some 0) g G r n = mainShare none g G r n := by
  simp [mainShare, pyTruthy]

/-- Replacing the root width by another value with the same `pyOr` result
leaves the computed geometry of the whole layout unchanged. -/
theorem geom_calc_width (t : YogaNode) (w1 w2 : Option Int) (x y aw ah : Int)
    (hp : pyOr w1 aw = pyOr w2 aw) :
    geomOf (calcLayoutXY { t with width := w1 } x y aw ah) =
      geomOf (calcLayoutXY { t with width := w2 } x y aw ah) := by
  rw [calcLayoutXY_eq, calcLayoutXY_eq]
  simp only []
  by_cases hemp : t.children.isEmpty
  · rw [if_pos hemp, if_pos hemp, geomOf_eq, geomOf_eq]
    simp only []
    rw [hp]
  · rw [if_neg hemp, if_neg hemp]
    cases hdir : t.flex_direction
    · rw [geomOf_eq, geomOf_eq]
      simp only []
      rw [hp]
    · rw [geomOf_eq, geomOf_eq]
      simp only []
      rw [hp]

/-- Height mirror of `geom_calc_width`. -/
theorem geom_calc_height (t : YogaNode) (h1 h2 : Option Int) (x y aw ah : Int)
    (hp : pyOr h1 ah = pyOr h2 ah) :
    geomOf (calcLayoutXY { t with height := h1 } x y aw ah) =
      geomOf (calcLayoutXY { t with height := h2 } x y aw ah) := by
  rw [calcLayoutXY_eq, calcLayoutXY_eq]
  simp only []
  by_cases hemp : t.children.isEmpty
  · rw [if_pos hemp, if_pos hemp, geomOf_eq, geomOf_eq]
    simp only []
    rw [hp]
  · rw [if_neg hemp, if_neg hemp]
    cases hdir : t.flex_direction
    · rw [geomOf_eq, geomOf_eq]
      simp only []
      rw [hp]
    · rw [geomOf_eq, geomOf_eq]
      simp only []
      rw [hp]

/-- C10: a node whose explicit width (or height) is 0 is treated as if the
size were unset, because Python's `or` and `if child.width:` treat 0 as
falsy. A root with width 0 takes the full available width; the computed
geometry of the whole tree is the same as with width unset; and a Row
child (resp. Column child) with width 0 (resp. height 0) receives exactly
the flex-grow or even-division share an unset-width child would receive. -/
theorem C10_zero_size_is_unset (t p c : YogaNode) (pre post : List YogaNode)
    (aw ah : Int) :
    ((calculateLayout { t with width := some 0 } aw ah).computed_width = aw) ∧
    (geomOf (calculateLayout { t with width := some 0 } aw ah)
      = geomOf (calculateLayout { t with width := none } aw ah)) ∧
    (geomOf (calculateLayout { t with height := some 0 } aw ah)
      = geomOf (calculateLayout { t with height := none } aw ah)) ∧
    (p.flex_direction = FlexDirection.row →
      ((calculateLayout
            { p with children := pre ++ { c with width := some 0 } :: post }
            aw ah).children.map
          (fun k => k.computed_width))[pre.length]?
        = some (mainShare none c.flex_grow
            (sumFlex (pre ++ { c with width := some 0 } :: post))
            (aw - 2 * ((pre ++ { c with width := some 0 } :: post).length : Int))
            (pre ++ { c with width := some 0 } :: post).length)) ∧
    (p.flex_direction = FlexDirection.column →
      ((calculateLayout
            { p with children := pre ++ { c with height := some 0 } :: post }
            aw ah).children.map
          (fun k => k.computed_height))[pre.length]?
        = some (mainShare none c.flex_grow
            (sumFlex (pre ++ { c with height := some 0 } :: post))
            (ah - 2 * ((pre ++ { c with height := some 0 } :: post).length : Int))
            (pre ++ { c with height := some 0 } :: post).length)) := by
  refine ⟨?_, ?_, ?_, ?_, ?_⟩
  · rw [calculateLayout, calcLayoutXY_computed_width]
    simp [pyOr]
  · rw [calculateLayout, calculateLayout]
    simp only []
    exact geom_calc_width t (some 0) none _ _ aw ah (by simp [pyOr])
  · rw [calculateLayout, calculateLayout]
    simp only []
    exact geom_calc_height t (some 0) none _ _ aw ah (by simp [pyOr])
  · intro hrow
    rw [layout_row_widths _ aw ah (by simp only []; exact hrow)]
    simp only []
    rw [List.map_append]
    rw [List.getElem?_append_right (by simp)]
    simp only [List.length_map, Nat.sub_self, List.map_cons,
      List.getElem?_cons_zero]
    rw [mainShare_zero]
  · intro hcol
    rw [layout_col_heights _ aw ah (by simp only []; exact hcol)]
    simp only []
    rw [List.map_append]
    rw [List.getElem?_append_right (by simp)]
    simp only [List.length_map, Nat.sub_self, List.map_cons,
      List.getElem?_cons_zero]
    rw [mainShare_zero]

theorem C10_zero_size_is_unset_witness :
    c2root.flex_direction = FlexDirection.row ∧
    ((calculateLayout
          { c2root with children := [] ++ { c3kid with width := some 0 } :: [defaultLeaf] }
          9 4).children.map
        (fun k => k.computed_width))[(0 : Nat)]?
      = some (mainShare none c3kid.flex_grow
          (sumFlex ([] ++ { c3kid with width := some 0 } :: [defaultLeaf]))
          (9 - 2 * (([] ++ { c3kid with width := some 0 } :: [defaultLeaf]).length : Int))
          ([] ++ { c3kid with width := some 0 } :: [defaultLeaf]).length) ∧
    defaultLeaf.flex_direction = FlexDirection.column ∧
    ((calculateLayout
          { defaultLeaf with
              children := [] ++ { c3kid with height := some 0 } :: [defaultLeaf] }
          9 4).children.map
        (fun k => k.computed_height))[(0 : Nat)]?
      = some (mainShare none c3kid.flex_grow
          (sumFlex ([] ++ { c3kid with height := some 0 } :: [defaultLeaf]))
          (4 - 2 * (([] ++ { c3kid with height := some 0 } :: [defaultLeaf]).length : Int))
          ([] ++ { c3kid with height := some 0 } :: [defaultLeaf]).length) := by
  refine ⟨rfl, ?_, rfl, ?_⟩
  · have h := (C10_zero_size_is_unset defaultLeaf c2root c3kid [] [defaultLeaf]
      9 4).2.2.2.1 rfl
    simpa using h
  · have h := (C10_zero_size_is_unset c2root defaultLeaf c3kid [] [defaultLeaf]
      9 4).2.2.2.2 rfl
    simpa using h

end YogaSpec
